import Mathlib

/-!
Verification of the LL-HLS streaming core of the Video-latency repository.

Shallow embedding of the Python sources:
* `ll-hls/streamer.py` — `PlaylistManager` (live playlist engine and
  MP4 box extractor);
* `ll-hls/streamer_biim.py` and `ll-hls/server/streamer.py` — the MPEG-TS
  demultiplexer's PMT handling and the segment timestamp correlator
  `_record_new_segments_from_m3u8`.

Mutable object state becomes explicit state records; the condition
variable of `PlaylistManager` is modelled by passing the state observed
when a `wait` call returns, together with a flag recording whether the
wait was performed at all.  Byte strings become `List Nat`; Python floats
(durations, timeouts) become `ℚ`.
-/

namespace VideoLatency

/-! ## Live Playlist Engine (`ll-hls/streamer.py`, class `PlaylistManager`) -/

/-- One entry of `PlaylistManager._segments` (the dict appended in
`add_segment`, streamer.py lines 213-220). -/
structure SegmentEntry where
  sequence : Nat
  name : String
  duration : ℚ
  programTime : String
deriving Repr, DecidableEq

/-- The mutable fields of `PlaylistManager` (streamer.py lines 127-140).
`playlistBytes` is `_playlist_bytes` (`None` before the first successful
render); `initWritten` is `_init_written`. -/
structure PMState where
  segments : List SegmentEntry
  playlistCapacity : Nat
  nextSequence : Nat
  baseSequence : Nat
  version : Nat
  targetDuration : ℚ
  partTarget : ℚ
  holdBack : ℚ
  partHoldBack : ℚ
  playlistBytes : Option String
  preloadHint : Option String
  initWritten : Bool
deriving Repr, DecidableEq

/-- The state `PlaylistManager.__init__` produces (streamer.py 118-140). -/
def PMState.init (playlistLength : Nat) (targetDuration partTarget holdBack partHoldBack : ℚ) :
    PMState :=
  { segments := []
    playlistCapacity := playlistLength
    nextSequence := 0
    baseSequence := 0
    version := 0
    targetDuration := targetDuration
    partTarget := partTarget
    holdBack := holdBack
    partHoldBack := partHoldBack
    playlistBytes := none
    preloadHint := none
    initWritten := false }

/-- Python truthiness of `self._playlist_bytes` (`Optional[bytes]`):
`None` and the empty byte string are falsy. -/
def pbTruthy : Option String → Bool
  | none => false
  | some s => !(s == "")

/-- Zero-pad a digit string to three characters, helper for `fmt3`. -/
def pad3 (n : Nat) : String :=
  if n < 10 then "00" ++ toString n
  else if n < 100 then "0" ++ toString n
  else toString n

/-- Fixed-point rendering `f"{x:.3f}"` of a Python float, modelled on `ℚ`
by rounding to three decimal places. -/
def fmt3 (q : ℚ) : String :=
  let n : Int := round (q * 1000)
  let sign := if n < 0 then "-" else ""
  let a := n.natAbs
  sign ++ toString (a / 1000) ++ "." ++ pad3 (a % 1000)

/-- `PlaylistManager._render_playlist_locked` (streamer.py 234-254):
returns the empty byte string when there is no segment or the init
segment has not been written, otherwise the M3U8 text. -/
def renderPlaylistLocked (st : PMState) : String :=
  if st.segments.isEmpty || !st.initWritten then ""
  else
    let headerLines : List String :=
      [ "#EXTM3U"
      , "#EXT-X-VERSION:9"
      , "#EXT-X-TARGETDURATION:" ++ toString (max 1 ⌈st.targetDuration⌉)
      , "#EXT-X-SERVER-CONTROL:CAN-BLOCK-RELOAD=YES,HOLD-BACK=" ++ fmt3 st.holdBack
          ++ ",PART-HOLD-BACK=" ++ fmt3 st.partHoldBack
      , "#EXT-X-PART-INF:PART-TARGET=" ++ fmt3 st.partTarget
      , "#EXT-X-MAP:URI=\"init.mp4\""
      , "#EXT-X-MEDIA-SEQUENCE:" ++ toString st.baseSequence ]
    let segLines : List String := st.segments.flatMap fun seg =>
      [ "#EXT-X-PROGRAM-DATE-TIME:" ++ seg.programTime
      , "#EXT-X-PART:DURATION=" ++ fmt3 seg.duration ++ ",URI=\"" ++ seg.name ++ "\""
      , "#EXTINF:" ++ fmt3 seg.duration ++ ","
      , seg.name ]
    let hintLines : List String :=
      match st.preloadHint with
      | some hint => ["#EXT-X-PRELOAD-HINT:TYPE=PART,URI=\"" ++ hint ++ "\""]
      | none => []
    String.intercalate "\n" (headerLines ++ segLines ++ hintLines) ++ "\n"

/-- The `while len(self._segments) > self._playlist_capacity` eviction loop
of `add_segment` (streamer.py 221-223): pops from the front, setting the
base sequence to the removed entry's sequence plus one. -/
def evictWhile (capacity : Nat) : List SegmentEntry → Nat → List SegmentEntry × Nat
  | [], base => ([], base)
  | s :: rest, base =>
      if (s :: rest).length > capacity then evictWhile capacity rest (s.sequence + 1)
      else (s :: rest, base)

/-- Events produced by one `add_segment` call: whether
`_write_playlist_to_disk_locked` ran and whether `notify_all` ran
(streamer.py 228-232; both happen only under `if rendered:`). -/
structure AddSegmentEvents where
  persisted : Bool
  notifiedAll : Bool
deriving Repr, DecidableEq

/-- `PlaylistManager.add_segment` (streamer.py 209-232). -/
def addSegment (st : PMState) (name : String) (duration : ℚ)
    (programTime : String) (preloadHint : String) : PMState × AddSegmentEvents :=
  let sequence := st.nextSequence
  let segs0 := st.segments ++ [⟨sequence, name, duration, programTime⟩]
  let (segs1, base1) := evictWhile st.playlistCapacity segs0 st.baseSequence
  let base2 := match segs1 with
    | [] => base1
    | s :: _ => s.sequence
  let st1 : PMState :=
    { st with
      segments := segs1
      nextSequence := st.nextSequence + 1
      baseSequence := base2
      preloadHint := some preloadHint
      version := st.version + 1 }
  let rendered := renderPlaylistLocked st1
  if rendered = "" then (st1, ⟨false, false⟩)
  else ({ st1 with playlistBytes := some rendered }, ⟨true, true⟩)

/-- `PlaylistManager.get_playlist` (streamer.py 263-273).  `stAfterWait`
is the manager state observed when `self._condition.wait` returns (equal
to `st` when no mutation happened during the wait); the `Bool` of the
result records whether the wait was performed. -/
def getPlaylist (st : PMState) (sinceVersion : Option Nat) (waitSeconds : ℚ)
    (stAfterWait : PMState) : Option (String × Nat) × Bool :=
  if pbTruthy st.playlistBytes && sinceVersion.isNone then
    (some (st.playlistBytes.getD "", st.version), false)
  else if sinceVersion.isSome && pbTruthy st.playlistBytes
      && decide (sinceVersion.getD 0 < st.version) then
    (some (st.playlistBytes.getD "", st.version), false)
  else
    let waited := decide (0 < waitSeconds)
    let st2 := if 0 < waitSeconds then stAfterWait else st
    if !pbTruthy st2.playlistBytes then (none, waited)
    else (some (st2.playlistBytes.getD "", st2.version), waited)

/-! ## Box Extractor (`ll-hls/streamer.py`, `_extract_init_boxes` and
`ensure_init_segment`) -/

/-- `int.from_bytes(bs, 'big')`. -/
def beNat (bs : List Nat) : Nat :=
  bs.foldl (fun a b => a * 256 + b) 0

/-- The four bytes of the ASCII tag `ftyp`. -/
def ftypTag : List Nat := [0x66, 0x74, 0x79, 0x70]

/-- The four bytes of the ASCII tag `moov`. -/
def moovTag : List Nat := [0x6d, 0x6f, 0x6f, 0x76]

/-- The `while offset < len(data) - 8` scan of `_extract_init_boxes`
(streamer.py 174-199).  Arguments: current offset, accumulated `result`
bytes, `found_ftyp`, `found_moov`; returns the values those three
variables hold when the loop exits.  The Python `break` after
`offset += box_size` when both boxes have been found is modelled by
checking the updated flags before the recursive call. -/
def extractLoop (data : List Nat) (offset : Nat) (acc : List Nat)
    (foundFtyp foundMoov : Bool) : List Nat × Bool × Bool :=
  if h : (offset : Int) < (data.length : Int) - 8 then
    let boxSize := beNat ((data.drop offset).take 4)
    let boxType := (data.drop (offset + 4)).take 4
    if boxSize = 0 then (acc, foundFtyp, foundMoov)
    else if boxSize < 8 then (acc, foundFtyp, foundMoov)
    else
      let step : List Nat × Bool × Bool :=
        if boxType = ftypTag then (acc ++ (data.drop offset).take boxSize, true, foundMoov)
        else if boxType = moovTag then (acc ++ (data.drop offset).take boxSize, foundFtyp, true)
        else (acc, foundFtyp, foundMoov)
      if step.2.1 && step.2.2 then step
      else extractLoop data (offset + boxSize) step.1 step.2.1 step.2.2
  else (acc, foundFtyp, foundMoov)
termination_by data.length - offset
decreasing_by
  have h1 : offset + 8 < data.length := by
    have h2 : (offset : Int) + 8 < (data.length : Int) := by linarith
    exact_mod_cast h2
  omega

/-- `PlaylistManager._extract_init_boxes` (streamer.py 167-207).
Returns `none` exactly when the Python function returns `None`
(`return result if result else None` on the one-box path). -/
def extractInitBoxes (data : List Nat) : Option (List Nat) :=
  let (result, foundFtyp, foundMoov) := extractLoop data 0 [] false false
  if foundFtyp && foundMoov then some result
  else if foundFtyp || foundMoov then
    if result.isEmpty then none else some result
  else none

/-! ## Transport-Stream Demultiplexer: PMT elementary-PID assignment
(`ll-hls/streamer_biim.py` `run_biim_pipeline`, lines 407-426, and
`ll-hls/server/streamer.py` `run_pipeline`, lines 356-366) -/

/-- The PID variables of the demultiplexing loop of
`streamer_biim.run_biim_pipeline` (initialised to `None`). -/
structure BiimPids where
  h264 : Option Nat
  h265 : Option Nat
  aac : Option Nat
deriving Repr, DecidableEq

/-- All-`None` initial PID state of `run_biim_pipeline`. -/
def BiimPids.init : BiimPids := ⟨none, none, none⟩

/-- One `(stream_type, elementary_PID, _)` entry of the PMT scan in
`run_biim_pipeline` (streamer_biim.py 413-426).  Note the source guards
only the log line with `if not H264_PID:` — the assignment
`H264_PID = elementary_PID` itself is unconditional, and likewise for
H.265 and AAC. -/
def biimApplyPMTEntry (st : BiimPids) (e : Nat × Nat) : BiimPids :=
  if e.1 = 0x1b then { st with h264 := some e.2 }
  else if e.1 = 0x24 then { st with h265 := some e.2 }
  else if e.1 = 0x0f then { st with aac := some e.2 }
  else st

/-- Processing one CRC-valid PMT section in `run_biim_pipeline`: fold
over its `(stream_type, elementary_PID)` entries in order. -/
def biimProcessPMT (st : BiimPids) (pmt : List (Nat × Nat)) : BiimPids :=
  pmt.foldl biimApplyPMTEntry st

/-- Processing a sequence of CRC-valid PMT sections in arrival order. -/
def biimProcessPMTs (st : BiimPids) (pmts : List (List (Nat × Nat))) : BiimPids :=
  pmts.foldl biimProcessPMT st

/-- The PID variables of `server/streamer.py`'s `run_pipeline`
(initialised `pmt_pid = h264_pid = aac_pid = None`; no H.265 branch). -/
structure ServerPids where
  h264 : Option Nat
  aac : Option Nat
deriving Repr, DecidableEq

/-- All-`None` initial PID state of `run_pipeline`. -/
def ServerPids.init : ServerPids := ⟨none, none⟩

/-- Python truthiness of an `Optional[int]` PID variable: `None` and `0`
are falsy, so `not h264_pid` means unassigned (or assigned PID 0). -/
def pidFalsy : Option Nat → Bool
  | none => true
  | some n => n == 0

/-- One PMT entry in `run_pipeline` (server/streamer.py 360-366): the
assignment is guarded by `and not h264_pid` / `and not aac_pid`. -/
def serverApplyPMTEntry (st : ServerPids) (e : Nat × Nat) : ServerPids :=
  if e.1 = 0x1b && pidFalsy st.h264 then { st with h264 := some e.2 }
  else if e.1 = 0x0f && pidFalsy st.aac then { st with aac := some e.2 }
  else st

/-- Processing one CRC-valid PMT section in `run_pipeline`. -/
def serverProcessPMT (st : ServerPids) (pmt : List (Nat × Nat)) : ServerPids :=
  pmt.foldl serverApplyPMTEntry st

/-- Processing a sequence of CRC-valid PMT sections in arrival order. -/
def serverProcessPMTs (st : ServerPids) (pmts : List (List (Nat × Nat))) : ServerPids :=
  pmts.foldl serverProcessPMT st

/-! ## Timestamp Correlator (`_record_new_segments_from_m3u8`, identical
logic in `ll-hls/streamer_biim.py` 71-106 and
`ll-hls/server/streamer.py` 161-192) -/

/-- The observable part of biim's m3u8 object: its media sequence
(`sequence` / `media_sequence`) and the live segment window (only
emptiness and length are read, so entries are unit). -/
structure M3U8Obs where
  sequence : Nat
  segments : List Unit
deriving Repr, DecidableEq

/-- `f"{i:05d}"`: zero-pad the decimal representation to five digits. -/
def pad5 (i : Nat) : String :=
  let s := toString i
  String.mk (List.replicate (5 - s.length) '0') ++ s

/-- `f"segment{file_index:05d}.m4s"`. -/
def segmentName (i : Nat) : String := "segment" ++ pad5 i ++ ".m4s"

/-- State of the timestamp correlator: `_CURRENT_SEGMENT_INDEX` and the
`_SEGMENT_TIMESTAMPS` dict, modelled as an insertion-ordered
association list. -/
structure TSCState where
  currentSegmentIndex : Nat
  timestamps : List (String × Nat)
deriving Repr, DecidableEq

/-- Python dict assignment `d[k] = v`: overwrite in place if the key is
present, else append. -/
def dictSet (m : List (String × Nat)) (k : String) (v : Nat) : List (String × Nat) :=
  if m.any (fun p => p.1 == k) then m.map (fun p => if p.1 == k then (k, v) else p)
  else m ++ [(k, v)]

/-- `sorted(d.keys())[0]`: the lexicographically smallest key. -/
def minKey (m : List (String × Nat)) : Option String :=
  m.foldl (fun acc p =>
    match acc with
    | none => some p.1
    | some s => if p.1 < s then some p.1 else some s) none

/-- `del d[k]`. -/
def delKey (m : List (String × Nat)) (k : String) : List (String × Nat) :=
  m.filter (fun p => !(p.1 == k))

/-- The body of the `for file_index in range(...)` loop: record the
timestamp, then evict the lexicographically oldest key if the dict has
grown beyond 120 entries. -/
def recordStep (now : Nat) (m : List (String × Nat)) (i : Nat) : List (String × Nat) :=
  let m1 := dictSet m (segmentName i) now
  if m1.length > 120 then delKey m1 ((minKey m1).getD "") else m1

/-- `_record_new_segments_from_m3u8`: returns the updated correlator
state given the observed m3u8 object and the wall-clock time `now`
(`time.time_ns()` taken once before the loop). -/
def recordNewSegments (st : TSCState) (obs : M3U8Obs) (now : Nat) : TSCState :=
  if obs.segments.isEmpty then st
  else
    let latest := obs.sequence + obs.segments.length
    if latest ≤ st.currentSegmentIndex then st
    else
      let ts := (List.range' (st.currentSegmentIndex + 1) (latest - st.currentSegmentIndex)).foldl
        (recordStep now) st.timestamps
      { currentSegmentIndex := latest, timestamps := ts }

/-- Outcome of `ensure_init_segment`: the new `_init_written` flag, the
bytes written to `init.mp4`, and whether the whole-fragment fallback
(`shutil.copyfile`) was used. -/
structure EnsureInitResult where
  initWritten : Bool
  written : Option (List Nat)
  usedFallback : Bool
deriving Repr, DecidableEq

/-- `PlaylistManager.ensure_init_segment` (streamer.py 142-165), with the
file I/O modelled as the bytes written (the `OSError` branch is disk
failure, outside this embedding). -/
def ensureInitSegment (initWritten : Bool) (fragment : List Nat) : EnsureInitResult :=
  if initWritten then ⟨initWritten, none, false⟩
  else
    match extractInitBoxes fragment with
    | some initData => ⟨true, some initData, false⟩
    | none => ⟨true, some fragment, true⟩

/-! ## Helper lemmas -/

/-- A string ending in a newline is not empty. -/
theorem string_append_newline_ne_empty (s : String) : s ++ "\n" ≠ "" := by
  intro h
  have h2 : (s ++ "\n").data = ([] : List Char) := by rw [h]
  rw [String.data_append] at h2
  simp at h2

/-- `evictWhile` leaves a list whose length is at most the capacity
untouched. -/
theorem evictWhile_of_length_le {capacity : Nat} {l : List SegmentEntry} {base : Nat}
    (h : l.length ≤ capacity) : evictWhile capacity l base = (l, base) := by
  cases l with
  | nil => rfl
  | cons s rest =>
      rw [evictWhile]
      simp only [if_neg (by omega : ¬(s :: rest).length > capacity)]

/-- With positive capacity, `evictWhile` never empties a nonempty list. -/
theorem evictWhile_ne_nil {capacity : Nat} (hcap : 1 ≤ capacity) :
    ∀ (l : List SegmentEntry) (base : Nat), l ≠ [] → (evictWhile capacity l base).1 ≠ [] := by
  intro l
  induction l with
  | nil => intro base h; exact absurd rfl h
  | cons s rest ih =>
      intro base _
      rw [evictWhile]
      by_cases hlen : (s :: rest).length > capacity
      · simp only [if_pos hlen]
        apply ih
        intro hnil
        subst hnil
        simp at hlen
        omega
      · simp only [if_neg hlen]
        exact List.cons_ne_nil s rest

/-- The rendered playlist is nonempty exactly on the states where the
source's `_render_playlist_locked` returns a nonempty byte string. -/
theorem renderPlaylistLocked_ne_empty {st : PMState}
    (hseg : st.segments ≠ []) (hinit : st.initWritten = true) :
    renderPlaylistLocked st ≠ "" := by
  rw [renderPlaylistLocked]
  rw [if_neg]
  · exact string_append_newline_ne_empty _
  · simp [hinit, hseg]

/-! ## Claim theorems -/

/-- Claim C1 (code_bug evaluation): feeding `run_biim_pipeline`'s PMT scan a
first valid PMT mapping stream type 0x1B to PID 256 and 0x0F to PID 257 and
then a second valid PMT mapping 0x1B to PID 999 leaves the H.264 PID at 999
(the assignment in streamer_biim.py lines 415-426 is unconditional; only the
log line is guarded by `if not H264_PID`), whereas the sibling demultiplexer
`run_pipeline` in server/streamer.py keeps the first assignment 256, which is
what the claim demands of both. -/
theorem C1_pmt_pid_reassigned_in_biim :
    (biimProcessPMTs BiimPids.init [[(0x1b, 256), (0x0f, 257)], [(0x1b, 999)]]).h264
        = some 999 ∧
    (serverProcessPMTs ServerPids.init [[(0x1b, 256), (0x0f, 257)], [(0x1b, 999)]]).h264
        = some 256 := by
  constructor <;> rfl

/-- Claim C2 (counterexample): on a freshly constructed manager (no playlist
published, init segment not written), `get_playlist` with no `since_version`
and `wait_seconds = 5` does perform the condition-variable wait before
returning `None`; the claim's "returns ... without waiting on the condition
variable regardless of the waitTimeout argument" is false in this state. -/
theorem C2_cex_waits_when_unpublished :
    (PMState.init 3 1 1 1 1).initWritten = false ∧
    getPlaylist (PMState.init 3 1 1 1 1) none 5 (PMState.init 3 1 1 1 1) = (none, true) := by
  constructor <;> rfl

/-- Claim C2 (amended): `get_playlist` with no `since_version` returns the
current playlist immediately and without waiting when one has been published;
when none has been published it returns `None` ("not yet available"), but
only after one condition wait bounded by `wait_seconds` when that timeout is
positive (here modelled with no mutation during the wait). -/
theorem C2_get_playlist_no_since (st stA : PMState) (w : ℚ) :
    (pbTruthy st.playlistBytes = true →
      getPlaylist st none w stA = (some (st.playlistBytes.getD "", st.version), false)) ∧
    (pbTruthy st.playlistBytes = false →
      getPlaylist st none w st = (none, decide (0 < w))) := by
  constructor
  · intro h
    rw [getPlaylist, if_pos]
    simp [h]
  · intro h
    rw [getPlaylist]
    rw [if_neg (by simp [h]), if_neg (by simp [h])]
    by_cases hw : (0 : ℚ) < w <;> simp [hw, h]

/-- Claim C2 (witness for the amended theorem). -/
theorem C2_get_playlist_no_since_witness :
    getPlaylist { PMState.init 3 1 1 1 1 with playlistBytes := some "x", version := 2 }
        none 5 { PMState.init 3 1 1 1 1 with playlistBytes := some "x", version := 2 }
      = (some ("x", 2), false) ∧
    getPlaylist (PMState.init 3 1 1 1 1) none 5 (PMState.init 3 1 1 1 1) = (none, true) := by
  constructor
  · exact (C2_get_playlist_no_since _ _ 5).1 (by rfl)
  · exact (C2_get_playlist_no_since (PMState.init 3 1 1 1 1) (PMState.init 3 1 1 1 1) 5).2 (by rfl)

/-- Claim C9: `get_playlist` performs at most one condition wait, and only
when the timeout argument is positive — so the call is bounded by that
timeout even if no `add_segment` mutation ever occurs — and on a timeout with
no new content (state unchanged across the wait) it returns the most recent
published playlist rather than an error. -/
theorem C9_get_playlist_bounded_wait (st stA : PMState) (sinceVersion : Option Nat) (w : ℚ) :
    ((getPlaylist st sinceVersion w stA).2 = true → 0 < w) ∧
    (pbTruthy st.playlistBytes = true →
      (getPlaylist st sinceVersion w st).1 = some (st.playlistBytes.getD "", st.version)) := by
  constructor
  · intro h
    rw [getPlaylist] at h
    split at h
    · simp at h
    · split at h
      · simp at h
      · by_cases hw : (0 : ℚ) < w
        · exact hw
        · simp only [if_neg hw, decide_eq_true_eq] at h
          split at h <;> simp_all
  · intro hpub
    rw [getPlaylist]
    split
    · rfl
    · split
      · rfl
      · have hst : (if 0 < w then st else st) = st := by split <;> rfl
        simp only [hst, hpub]
        rfl

/-- Claim C9 (witness): a published playlist with a stale `since_version`
and a positive timeout returns that playlist after the bounded wait. -/
theorem C9_get_playlist_bounded_wait_witness :
    (getPlaylist { PMState.init 3 1 1 1 1 with playlistBytes := some "pl", version := 4 }
        (some 7) 2 { PMState.init 3 1 1 1 1 with playlistBytes := some "pl", version := 4 }).1
      = some ("pl", 4) := by
  exact (C9_get_playlist_bounded_wait
    { PMState.init 3 1 1 1 1 with playlistBytes := some "pl", version := 4 }
    { PMState.init 3 1 1 1 1 with playlistBytes := some "pl", version := 4 }
    (some 7) 2).2 (by rfl)

/-- Claim C5: `add_segment` increments the playlist version by exactly one
(hence by at least one) on every call, and once the version has advanced
strictly past `V` (and does not decrease across the optional wait),
`get_playlist` with `since_version = V` never returns a playlist whose
version is at most `V`. -/
theorem C5_version_monotone (st : PMState) :
    (∀ (name : String) (d : ℚ) (pt ph : String),
      ((addSegment st name d pt ph).1).version = st.version + 1) ∧
    (∀ (stA : PMState) (V : Nat) (w : ℚ) (pr : String × Nat),
      V < st.version → st.version ≤ stA.version →
      (getPlaylist st (some V) w stA).1 = some pr → V < pr.2) := by
  constructor
  · intro name d pt ph
    rw [addSegment]
    simp only []
    split <;> rfl
  · intro stA V w pr h1 h2 hret
    rw [getPlaylist] at hret
    split at hret
    · simp_all
    · split at hret
      · simp only at hret
        injection hret with h3
        rw [← h3]
        exact h1
      · simp only at hret
        by_cases hw : (0 : ℚ) < w
        · simp only [if_pos hw] at hret
          split at hret
          · simp at hret
          · injection hret with h3
            rw [← h3]
            exact lt_of_lt_of_le h1 h2
        · simp only [if_neg hw] at hret
          split at hret
          · simp at hret
          · injection hret with h3
            rw [← h3]
            exact h1

/-- Claim C5 (witness): one `add_segment` on a fresh manager bumps the
version from 0 to 1, and a published state at version 4 answers a
`since_version = 2` read with version 4 > 2. -/
theorem C5_version_monotone_witness :
    ((addSegment (PMState.init 3 1 1 1 1) "s" 1 "t" "h").1).version = 1 ∧
    (2 : Nat) < 4 := by
  refine ⟨(C5_version_monotone (PMState.init 3 1 1 1 1)).1 "s" 1 "t" "h", ?_⟩
  exact (C5_version_monotone
      { PMState.init 3 1 1 1 1 with playlistBytes := some "pl", version := 4 }).2
    { PMState.init 3 1 1 1 1 with playlistBytes := some "pl", version := 4 }
    2 0 ("pl", 4) (by decide) (by decide) (by rfl)

/-- Claim C3 (counterexample): `add_segment` on a fresh manager whose init
segment has not been written returns without persisting and without calling
`notify_all` (the body under `if rendered:` is skipped because
`_render_playlist_locked` returned the empty byte string); the same happens
with a zero-capacity window even after the init segment exists.  This
refutes "addSegment never returns without having woken all blocked
readers". -/
theorem C3_cex_no_broadcast_before_init :
    (addSegment (PMState.init 3 1 1 1 1) "s" 1 "t" "h").2.notifiedAll = false ∧
    (addSegment (PMState.init 3 1 1 1 1) "s" 1 "t" "h").2.persisted = false ∧
    (addSegment { PMState.init 0 1 1 1 1 with initWritten := true } "s" 1 "t" "h").2.notifiedAll
      = false := by
  refine ⟨rfl, rfl, rfl⟩

/-- Claim C3 (amended): from every state where the init segment has been
written and the window capacity is at least one, `add_segment` re-renders
the playlist, persists it, and wakes every reader blocked on the condition
variable via `notify_all` (a broadcast, not a single-waiter signal); when
the init segment is missing (or the capacity is zero) it returns without
persisting or notifying. -/
theorem C3_add_segment_broadcasts (st : PMState) (name : String) (d : ℚ) (pt ph : String)
    (hinit : st.initWritten = true) (hcap : 1 ≤ st.playlistCapacity) :
    (addSegment st name d pt ph).2.persisted = true ∧
    (addSegment st name d pt ph).2.notifiedAll = true ∧
    ∃ s, (addSegment st name d pt ph).1.playlistBytes = some s ∧ s ≠ "" := by
  have hne : (evictWhile st.playlistCapacity
      (st.segments ++ [⟨st.nextSequence, name, d, pt⟩]) st.baseSequence).1 ≠ [] := by
    apply evictWhile_ne_nil hcap
    simp
  rw [addSegment]
  simp only []
  split
  case isTrue hren => exact absurd hren (renderPlaylistLocked_ne_empty hne hinit)
  case isFalse hren => exact ⟨rfl, rfl, _, rfl, hren⟩

/-- The scan loop returns its accumulated state unchanged as soon as the
`while offset < len(data) - 8` guard fails. -/
theorem extractLoop_stop (data : List Nat) (offset : Nat) (acc : List Nat) (fF fM : Bool)
    (h : ¬((offset : Int) < (data.length : Int) - 8)) :
    extractLoop data offset acc fF fM = (acc, fF, fM) := by
  rw [extractLoop, dif_neg h]

/-- Claim C10: the box scan never examines a box header that would start at
an offset at or past `len(data) - 8`; consequently a well-formed box whose
8-byte header occupies the last 8 bytes of the buffer is never accumulated
(the whole-buffer `ftyp` box of size 8 yields `None`), and every buffer of
length at most 8 yields `None` without any box being read. -/
theorem C10_no_header_in_last_eight_bytes :
    (∀ (data : List Nat) (offset : Nat) (acc : List Nat) (fF fM : Bool),
        (data.length : Int) - 8 ≤ (offset : Int) →
        extractLoop data offset acc fF fM = (acc, fF, fM)) ∧
    (∀ data : List Nat, data.length ≤ 8 → extractInitBoxes data = none) ∧
    extractInitBoxes ([0, 0, 0, 8] ++ ftypTag) = none := by
  have hshort : ∀ data : List Nat, data.length ≤ 8 → extractInitBoxes data = none := by
    intro data h
    rw [extractInitBoxes]
    rw [extractLoop_stop data 0 [] false false (by push_cast; omega)]
    rfl
  refine ⟨?_, hshort, ?_⟩
  · intro data offset acc fF fM h
    exact extractLoop_stop data offset acc fF fM (by omega)
  · exact hshort ([0, 0, 0, 8] ++ ftypTag) (by rw [ftypTag]; rfl)

/-- Claim C10 (witness): at the concrete buffer `[9,9,9]` of length 3 the
guard fails at offset 0 and extraction returns `None`. -/
theorem C10_no_header_in_last_eight_bytes_witness :
    extractLoop [9, 9, 9] 0 [] false false = ([], false, false) ∧
    extractInitBoxes [9, 9, 9] = none := by
  constructor
  · exact C10_no_header_in_last_eight_bytes.1 [9, 9, 9] 0 [] false false (by decide)
  · exact C10_no_header_in_last_eight_bytes.2.1 [9, 9, 9] (by decide)

/-- A slice `data[offset:offset+boxSize]` taken while the loop guard holds
and the box size is valid is nonempty. -/
theorem slice_ne_nil {data : List Nat} {offset boxSize : Nat}
    (h : (offset : Int) < (data.length : Int) - 8) (h8 : ¬boxSize < 8) :
    (data.drop offset).take boxSize ≠ [] := by
  have hlen : offset + 8 < data.length := by
    have h2 : (offset : Int) + 8 < (data.length : Int) := by linarith
    exact_mod_cast h2
  have : 0 < ((data.drop offset).take boxSize).length := by
    rw [List.length_take, List.length_drop]
    omega
  exact List.ne_nil_of_length_pos this

/-- Invariant of the scan loop: if a nonempty accumulator accompanies any
set found-flag at entry, the same holds at exit — so a final state with a
flag set carries at least one accumulated box. -/
theorem extractLoop_acc_ne_nil (data : List Nat) (offset : Nat) (acc : List Nat) (fF fM : Bool) :
    ((fF || fM) = true → acc ≠ []) →
    ((extractLoop data offset acc fF fM).2.1 || (extractLoop data offset acc fF fM).2.2) = true →
    (extractLoop data offset acc fF fM).1 ≠ [] := by
  induction offset, acc, fF, fM using extractLoop.induct data with
  | case1 offset acc fF fM h bs hz =>
      intro hacc
      have hz' : beNat (List.take 4 (List.drop offset data)) = 0 := hz
      rw [extractLoop, dif_pos h]
      rw [if_pos hz']
      exact fun hf => hacc hf
  | case2 offset acc fF fM h bs hz hlt =>
      intro hacc
      have hz' : ¬beNat (List.take 4 (List.drop offset data)) = 0 := hz
      have hlt' : beNat (List.take 4 (List.drop offset data)) < 8 := hlt
      rw [extractLoop, dif_pos h]
      rw [if_neg hz', if_pos hlt']
      exact fun hf => hacc hf
  | case3 offset acc fF fM h bs bt hz hlt stp hboth =>
      intro hacc
      have hz' : ¬beNat (List.take 4 (List.drop offset data)) = 0 := hz
      have hlt' : ¬beNat (List.take 4 (List.drop offset data)) < 8 := hlt
      unfold_let stp bt bs at hboth
      simp only [dite_eq_ite] at hboth
      rw [extractLoop, dif_pos h]
      rw [if_neg hz', if_neg hlt']
      simp only []
      rw [if_pos hboth]
      intro _
      split
      · exact List.append_ne_nil_of_right_ne_nil _ (slice_ne_nil h hlt')
      · split
        · exact List.append_ne_nil_of_right_ne_nil _ (slice_ne_nil h hlt')
        · next h1 h2 =>
            rw [if_neg h1, if_neg h2] at hboth
            simp only [Bool.and_eq_true] at hboth
            apply hacc
            simp [hboth.1]
  | case4 offset acc fF fM h bs bt hz hlt stp hnboth ih =>
      intro hacc
      have hz' : ¬beNat (List.take 4 (List.drop offset data)) = 0 := hz
      have hlt' : ¬beNat (List.take 4 (List.drop offset data)) < 8 := hlt
      unfold_let stp bt bs at hnboth ih
      simp only [dite_eq_ite] at hnboth ih
      rw [extractLoop, dif_pos h]
      rw [if_neg hz', if_neg hlt']
      simp only []
      rw [if_neg hnboth]
      apply ih
      intro hflags
      split
      · exact List.append_ne_nil_of_right_ne_nil _ (slice_ne_nil h hlt')
      · split
        · exact List.append_ne_nil_of_right_ne_nil _ (slice_ne_nil h hlt')
        · next h1 h2 =>
            rw [if_neg h1, if_neg h2] at hflags
            exact hacc hflags
  | case5 offset acc fF fM h =>
      intro hacc
      rw [extractLoop, dif_neg h]
      exact fun hf => hacc hf

/-- One unfolding of the scan loop while the guard holds. -/
theorem extractLoop_unfold (data : List Nat) (offset : Nat) (acc : List Nat) (fF fM : Bool)
    (h : (offset : Int) < (data.length : Int) - 8) :
    extractLoop data offset acc fF fM =
      (let boxSize := beNat ((data.drop offset).take 4)
       let boxType := (data.drop (offset + 4)).take 4
       if boxSize = 0 then (acc, fF, fM)
       else if boxSize < 8 then (acc, fF, fM)
       else
         let stp : List Nat × Bool × Bool :=
           if boxType = ftypTag then (acc ++ (data.drop offset).take boxSize, true, fM)
           else if boxType = moovTag then (acc ++ (data.drop offset).take boxSize, fF, true)
           else (acc, fF, fM)
         if stp.2.1 && stp.2.2 then stp
         else extractLoop data (offset + boxSize) stp.1 stp.2.1 stp.2.2) := by
  rw [extractLoop, dif_pos h]

/-- Claim C7: the box scan terminates on a box size of 0 or a size below 8;
when neither `ftyp` nor `moov` was found the extractor returns `None`
(the MissingInitBoxes condition) and `ensure_init_segment` then falls back
to writing the whole first fragment as the init segment, still marking the
init segment written (no abort); when exactly one of the two boxes was
found the extractor returns the accumulated bytes of that box alone (the
warning path), not `None`. -/
theorem C7_extractor_error_handling :
    (∀ (data : List Nat) (offset : Nat) (acc : List Nat) (fF fM : Bool),
        (offset : Int) < (data.length : Int) - 8 →
        (beNat ((data.drop offset).take 4) = 0 ∨ beNat ((data.drop offset).take 4) < 8) →
        extractLoop data offset acc fF fM = (acc, fF, fM)) ∧
    (∀ data : List Nat,
        (extractLoop data 0 [] false false).2.1 = false →
        (extractLoop data 0 [] false false).2.2 = false →
        extractInitBoxes data = none) ∧
    (∀ data : List Nat, extractInitBoxes data = none →
        ensureInitSegment false data = ⟨true, some data, true⟩) ∧
    (∀ data : List Nat,
        (extractLoop data 0 [] false false).2.1 ≠ (extractLoop data 0 [] false false).2.2 →
        extractInitBoxes data = some (extractLoop data 0 [] false false).1 ∧
        (extractLoop data 0 [] false false).1 ≠ []) := by
  refine ⟨?_, ?_, ?_, ?_⟩
  · intro data offset acc fF fM h hsz
    rw [extractLoop_unfold data offset acc fF fM h]
    simp only []
    rcases hsz with hz | hlt
    · rw [if_pos hz]
    · by_cases hz : beNat ((data.drop offset).take 4) = 0
      · rw [if_pos hz]
      · rw [if_neg hz, if_pos hlt]
  · intro data h1 h2
    rw [extractInitBoxes]
    simp [h1, h2]
  · intro data h
    rw [ensureInitSegment]
    simp [h]
  · intro data hne
    have hnil : (extractLoop data 0 [] false false).1 ≠ [] := by
      apply extractLoop_acc_ne_nil data 0 [] false false
      · intro hf
        simp at hf
      · cases hb1 : (extractLoop data 0 [] false false).2.1 <;>
          cases hb2 : (extractLoop data 0 [] false false).2.2 <;>
          simp_all
    refine ⟨?_, hnil⟩
    rw [extractInitBoxes]
    cases hb1 : (extractLoop data 0 [] false false).2.1 <;>
      cases hb2 : (extractLoop data 0 [] false false).2.2
    · rw [hb1] at hne
      rw [hb2] at hne
      exact absurd rfl hne
    · simp [hb1, hb2, hnil]
    · simp [hb1, hb2, hnil]
    · rw [hb1] at hne
      rw [hb2] at hne
      exact absurd rfl hne

/-- Claim C7 (witness): a buffer whose first box size field is 0 stops the
scan at once; the 3-byte buffer `[1,2,3]` yields `None` and the
whole-fragment fallback; a buffer holding a single complete `ftyp` box and
nothing else yields just that box. -/
theorem C7_extractor_error_handling_witness :
    extractLoop [0, 0, 0, 0, 102, 116, 121, 112, 9] 0 [] false false = ([], false, false) ∧
    extractInitBoxes [1, 2, 3] = none ∧
    ensureInitSegment false [1, 2, 3] = ⟨true, some [1, 2, 3], true⟩ ∧
    extractInitBoxes [0, 0, 0, 12, 102, 116, 121, 112, 1, 2, 3, 4]
      = some [0, 0, 0, 12, 102, 116, 121, 112, 1, 2, 3, 4] := by
  have hstop3 : extractLoop [1, 2, 3] 0 [] false false = ([], false, false) :=
    extractLoop_stop _ _ _ _ _ (by decide)
  have hnone3 : extractInitBoxes [1, 2, 3] = none :=
    C7_extractor_error_handling.2.1 [1, 2, 3] (by rw [hstop3]) (by rw [hstop3])
  have hcomp : extractLoop [0, 0, 0, 12, 102, 116, 121, 112, 1, 2, 3, 4] 0 [] false false
      = ([0, 0, 0, 12, 102, 116, 121, 112, 1, 2, 3, 4], true, false) := by
    rw [extractLoop_unfold _ _ _ _ _ (by decide)]
    simp only []
    rw [if_neg (by decide), if_neg (by decide)]
    rw [if_pos (by decide : (([0, 0, 0, 12, 102, 116, 121, 112, 1, 2, 3, 4].drop (0 + 4)).take 4)
      = ftypTag)]
    simp only [Bool.and_false, Bool.false_eq_true, if_neg]
    rw [if_neg (by decide)]
    have h12 : beNat (([0, 0, 0, 12, 102, 116, 121, 112, 1, 2, 3, 4].drop 0).take 4) = 12 := by
      decide
    rw [h12]
    rw [show ([0, 0, 0, 12, 102, 116, 121, 112, 1, 2, 3, 4].drop 0).take 12
      = [0, 0, 0, 12, 102, 116, 121, 112, 1, 2, 3, 4] from by decide]
    rw [List.nil_append]
    exact extractLoop_stop _ _ _ _ _ (by decide)
  refine ⟨?_, hnone3, ?_, ?_⟩
  · exact C7_extractor_error_handling.1 [0, 0, 0, 0, 102, 116, 121, 112, 9] 0 [] false false
      (by decide) (Or.inl (by decide))
  · exact C7_extractor_error_handling.2.2.1 [1, 2, 3] hnone3
  · have h4 := C7_extractor_error_handling.2.2.2
      [0, 0, 0, 12, 102, 116, 121, 112, 1, 2, 3, 4] (by rw [hcomp]; decide)
    rw [hcomp] at h4
    exact h4.1

/-- Scanning a buffer that starts with a 20-byte `ftyp` box followed by a
100-byte `moov` box accumulates exactly those two boxes and stops, whatever
follows them. -/
theorem extractLoop_two_boxes (f m t : List Nat) (hf : f.length = 12) (hm : m.length = 92) :
    extractLoop ([0,0,0,20] ++ (ftypTag ++ (f ++ ([0,0,0,100] ++ (moovTag ++ (m ++ t)))))) 0 [] false false
      = (([0,0,0,20] ++ (ftypTag ++ f)) ++ ([0,0,0,100] ++ (moovTag ++ m)), true, true) := by
  have hlen : ([0,0,0,20] ++ (ftypTag ++ (f ++ ([0,0,0,100] ++ (moovTag ++ (m ++ t)))))).length
      = 120 + t.length := by
    simp only [List.length_append, List.length_cons, List.length_nil, hf, hm, ftypTag, moovTag]
    omega
  have T1 : (([0,0,0,20] ++ (ftypTag ++ (f ++ ([0,0,0,100] ++ (moovTag ++ (m ++ t)))))).drop 0).take 4
      = [0,0,0,20] := by
    rw [List.drop_zero]
    exact List.take_left' rfl
  have T2 : (([0,0,0,20] ++ (ftypTag ++ (f ++ ([0,0,0,100] ++ (moovTag ++ (m ++ t)))))).drop (0+4)).take 4
      = ftypTag := by
    rw [show (0+4) = 4 from rfl, List.drop_left' (by rfl)]
    exact List.take_left' (by rw [ftypTag]; rfl)
  have T3 : (([0,0,0,20] ++ (ftypTag ++ (f ++ ([0,0,0,100] ++ (moovTag ++ (m ++ t)))))).drop 0).take 20
      = [0,0,0,20] ++ (ftypTag ++ f) := by
    rw [List.drop_zero]
    rw [List.take_append_eq_append_take, List.take_append_eq_append_take]
    rw [show ([0,0,0,20] : List Nat).take 20 = [0,0,0,20] from rfl]
    rw [show ((20:Nat) - ([0,0,0,20] : List Nat).length) = 16 from rfl]
    rw [show ftypTag.take 16 = ftypTag from by rw [ftypTag]; rfl]
    rw [show ((16:Nat) - ftypTag.length) = 12 from by rw [ftypTag]; rfl]
    rw [List.take_append_eq_append_take, ← hf, List.take_length]
    simp
  have T4 : ([0,0,0,20] ++ (ftypTag ++ (f ++ ([0,0,0,100] ++ (moovTag ++ (m ++ t)))))).drop 20
      = [0,0,0,100] ++ (moovTag ++ (m ++ t)) := by
    rw [List.drop_append_eq_append_drop]
    rw [show (([0,0,0,20] : List Nat).drop 20) = [] from rfl]
    rw [show ((20:Nat) - ([0,0,0,20] : List Nat).length) = 16 from rfl]
    rw [List.drop_append_eq_append_drop]
    rw [show ftypTag.drop 16 = [] from by rw [ftypTag]; rfl]
    rw [show ((16:Nat) - ftypTag.length) = 12 from by rw [ftypTag]; rfl]
    rw [List.drop_append_eq_append_drop, ← hf, List.drop_length]
    simp [hf]
  have T5 : ((([0,0,0,20] ++ (ftypTag ++ (f ++ ([0,0,0,100] ++ (moovTag ++ (m ++ t)))))).drop 20).take 4)
      = [0,0,0,100] := by
    rw [T4]
    exact List.take_left' rfl
  have T6 : (([0,0,0,20] ++ (ftypTag ++ (f ++ ([0,0,0,100] ++ (moovTag ++ (m ++ t)))))).drop (20+4)).take 4
      = moovTag := by
    rw [← List.drop_drop, T4]
    rw [List.drop_left' (by rfl)]
    exact List.take_left' (by rw [moovTag]; rfl)
  have T7 : ((([0,0,0,20] ++ (ftypTag ++ (f ++ ([0,0,0,100] ++ (moovTag ++ (m ++ t)))))).drop 20).take 100)
      = [0,0,0,100] ++ (moovTag ++ m) := by
    rw [T4]
    rw [List.take_append_eq_append_take, List.take_append_eq_append_take]
    rw [show (([0,0,0,100] : List Nat).take 100) = [0,0,0,100] from rfl]
    rw [show ((100:Nat) - ([0,0,0,100] : List Nat).length) = 96 from rfl]
    rw [show moovTag.take 96 = moovTag from by rw [moovTag]; rfl]
    rw [show ((96:Nat) - moovTag.length) = 92 from by rw [moovTag]; rfl]
    rw [List.take_append_eq_append_take, ← hm, List.take_length]
    simp
  rw [extractLoop_unfold _ _ _ _ _ (by omega)]
  simp only []
  rw [T1, show beNat [0,0,0,20] = 20 from rfl]
  rw [if_neg (by decide : ¬(20 = 0)), if_neg (by decide : ¬(20 < 8))]
  rw [T2]
  rw [if_pos (rfl : ftypTag = ftypTag)]
  simp only []
  rw [if_neg (by decide : ¬((true && false) = true))]
  rw [T3, List.nil_append]
  rw [show ((0:Nat) + 20) = 20 from rfl]
  rw [extractLoop_unfold _ _ _ _ _ (by omega)]
  simp only []
  rw [T5, show beNat [0,0,0,100] = 100 from rfl]
  rw [if_neg (by decide : ¬(100 = 0)), if_neg (by decide : ¬(100 < 8))]
  rw [T6]
  rw [if_neg (by decide : ¬(moovTag = ftypTag)), if_pos (rfl : moovTag = moovTag)]
  simp only []
  rw [if_pos (by decide : ((true && true) = true))]
  rw [T7]

/-- Claim C6: on a buffer made of a 20-byte `ftyp` box, a 100-byte `moov`
box and arbitrary trailing bytes (such as a 50-byte `moof` box), the Box
Extractor returns exactly the first 120 bytes — the `ftyp` and `moov` boxes
concatenated in scan order — and the scan stops as soon as both boxes have
been found: the trailing bytes are never examined (the result is the same
for every tail). -/
theorem C6_extract_returns_first_120_bytes (f m t : List Nat)
    (hf : f.length = 12) (hm : m.length = 92) :
    extractInitBoxes ([0,0,0,20] ++ (ftypTag ++ (f ++ ([0,0,0,100] ++ (moovTag ++ (m ++ t))))))
      = some (([0,0,0,20] ++ (ftypTag ++ f)) ++ ([0,0,0,100] ++ (moovTag ++ m))) ∧
    ([0,0,0,20] ++ (ftypTag ++ (f ++ ([0,0,0,100] ++ (moovTag ++ (m ++ t)))))).take 120
      = ([0,0,0,20] ++ (ftypTag ++ f)) ++ ([0,0,0,100] ++ (moovTag ++ m)) := by
  constructor
  · rw [extractInitBoxes]
    rw [extractLoop_two_boxes f m t hf hm]
    rfl
  · have hassoc : [0,0,0,20] ++ (ftypTag ++ (f ++ ([0,0,0,100] ++ (moovTag ++ (m ++ t)))))
        = (([0,0,0,20] ++ (ftypTag ++ f)) ++ ([0,0,0,100] ++ (moovTag ++ m))) ++ t := by
      simp [List.append_assoc]
    rw [hassoc]
    apply List.take_left'
    simp only [List.length_append, List.length_cons, List.length_nil, hf, hm, ftypTag, moovTag]

/-- Claim C6 (witness): the concrete buffer with `ftyp` payload of twelve
1-bytes, `moov` payload of ninety-two 2-bytes and a trailing 50-byte `moof`
box extracts to its 120-byte prefix. -/
theorem C6_extract_returns_first_120_bytes_witness :
    extractInitBoxes ([0,0,0,20] ++ (ftypTag ++ (List.replicate 12 1 ++
        ([0,0,0,100] ++ (moovTag ++ (List.replicate 92 2 ++
          ([0,0,0,50] ++ ([109,111,111,102] ++ List.replicate 42 3))))))))
      = some (([0,0,0,20] ++ (ftypTag ++ List.replicate 12 1))
          ++ ([0,0,0,100] ++ (moovTag ++ List.replicate 92 2))) := by
  exact (C6_extract_returns_first_120_bytes (List.replicate 12 1) (List.replicate 92 2)
    ([0,0,0,50] ++ ([109,111,111,102] ++ List.replicate 42 3))
    (by simp) (by simp)).1

/-! ## Iterated `add_segment` (claim C4) -/

/-- `K` successive `add_segment` calls with arbitrary per-call metadata. -/
def iterateAdd (names ptimes hints : Nat → String) (durs : Nat → ℚ) (st : PMState) :
    Nat → PMState
  | 0 => st
  | k + 1 =>
      (addSegment (iterateAdd names ptimes hints durs st k)
        (names k) (durs k) (ptimes k) (hints k)).1

/-- One eviction step: a list one longer than the capacity loses exactly
its head, and the running base becomes the head's sequence plus one. -/
theorem evictWhile_pop {capacity : Nat} (x : SegmentEntry) (rest : List SegmentEntry)
    (base : Nat) (h : rest.length = capacity) :
    evictWhile capacity (x :: rest) base = (rest, x.sequence + 1) := by
  rw [evictWhile]
  rw [if_pos (by simp [h])]
  exact evictWhile_of_length_le (le_of_eq h)

/-- The window-state fields produced by one `add_segment` call, identical in
both render branches. -/
theorem addSegment_fields (st : PMState) (n : String) (d : ℚ) (p q : String) :
    (addSegment st n d p q).1.playlistCapacity = st.playlistCapacity ∧
    (addSegment st n d p q).1.nextSequence = st.nextSequence + 1 ∧
    (addSegment st n d p q).1.segments
        = (evictWhile st.playlistCapacity (st.segments ++ [⟨st.nextSequence, n, d, p⟩])
            st.baseSequence).1 ∧
    (addSegment st n d p q).1.baseSequence
        = (match (evictWhile st.playlistCapacity (st.segments ++ [⟨st.nextSequence, n, d, p⟩])
              st.baseSequence).1 with
           | [] => (evictWhile st.playlistCapacity (st.segments ++ [⟨st.nextSequence, n, d, p⟩])
              st.baseSequence).2
           | s :: _ => s.sequence) := by
  rw [addSegment]
  simp only []
  split <;> exact ⟨rfl, rfl, rfl, rfl⟩

/-- One `add_segment` call advances a well-formed window: the sequences
`k-cap … k-1` become `k+1-cap … k`, and the base sequence is the head
segment's sequence. -/
theorem addSegment_window_step (S : PMState) (k cap : Nat) (n : String) (d : ℚ) (p q : String)
    (hcap : 1 ≤ cap) (h1 : S.playlistCapacity = cap) (h2 : S.nextSequence = k)
    (h3 : S.segments.map (fun e => e.sequence) = List.range' (k - cap) (min k cap)) :
    (addSegment S n d p q).1.playlistCapacity = cap ∧
    (addSegment S n d p q).1.nextSequence = k + 1 ∧
    (addSegment S n d p q).1.segments.map (fun e => e.sequence)
      = List.range' ((k + 1) - cap) (min (k + 1) cap) ∧
    (∃ hd tl, (addSegment S n d p q).1.segments = hd :: tl ∧
      (addSegment S n d p q).1.baseSequence = hd.sequence) := by
  obtain ⟨hA, hB, hC, hD⟩ := addSegment_fields S n d p q
  rw [h1, h2] at hC hD
  have hlenS : S.segments.length = min k cap := by
    have h := congrArg List.length h3
    simpa using h
  by_cases hk : k < cap
  · have hEe : evictWhile cap (S.segments ++ [⟨k, n, d, p⟩]) S.baseSequence
        = (S.segments ++ [⟨k, n, d, p⟩], S.baseSequence) :=
      evictWhile_of_length_le (by simp [hlenS]; omega)
    rw [hEe] at hC hD
    refine ⟨by rw [hA, h1], by rw [hB, h2], ?_, ?_⟩
    · rw [hC, List.map_append, h3]
      simp only [List.map_cons, List.map_nil]
      have e1 : k - cap = 0 := by omega
      have e2 : min k cap = k := by omega
      have e3 : (k + 1) - cap = 0 := by omega
      have e4 : min (k + 1) cap = k + 1 := by omega
      rw [e1, e2, e3, e4, List.range'_concat]
      simp
    · obtain ⟨hd, tl, hcons⟩ :=
        List.exists_cons_of_ne_nil (show S.segments ++ [(⟨k, n, d, p⟩ : SegmentEntry)] ≠ []
          by simp)
      rw [hcons] at hC hD
      exact ⟨hd, tl, hC, hD⟩
  · have hm0 : (S.segments ++ [(⟨k, n, d, p⟩ : SegmentEntry)]).map (fun e => e.sequence)
        = List.range' (k - cap) (cap + 1) := by
      rw [List.map_append, h3, min_eq_right (by omega)]
      simp only [List.map_cons, List.map_nil]
      rw [List.range'_concat, one_mul]
      have e5 : k - cap + cap = k := by omega
      rw [e5]
    obtain ⟨x, rest, hcons⟩ :=
      List.exists_cons_of_ne_nil (show S.segments ++ [(⟨k, n, d, p⟩ : SegmentEntry)] ≠ []
        by simp)
    have hrest : rest.length = cap := by
      have hl := congrArg List.length hm0
      rw [hcons] at hl
      simp [List.length_range'] at hl
      omega
    have hEe : evictWhile cap (S.segments ++ [⟨k, n, d, p⟩]) S.baseSequence
        = (rest, x.sequence + 1) := by
      rw [hcons]
      exact evictWhile_pop x rest _ hrest
    rw [hEe] at hC hD
    have hxrest : rest.map (fun e => e.sequence) = List.range' (k - cap + 1) cap := by
      rw [hcons, List.range'_succ] at hm0
      simp only [List.map_cons, List.cons.injEq] at hm0
      exact hm0.2
    refine ⟨by rw [hA, h1], by rw [hB, h2], ?_, ?_⟩
    · rw [hC, hxrest]
      have e6 : (k + 1) - cap = k - cap + 1 := by omega
      have e7 : min (k + 1) cap = cap := by omega
      rw [e6, e7]
    · obtain ⟨hd, tl, hcons2⟩ := List.exists_cons_of_ne_nil
        (show rest ≠ [] by
          intro hnil
          rw [hnil] at hrest
          simp at hrest
          omega)
      rw [hcons2] at hC hD
      exact ⟨hd, tl, hC, hD⟩

/-- Invariant of `k` iterated `add_segment` calls on a fresh manager with
positive capacity. -/
theorem iterateAdd_invariant (cap : Nat) (td pt hb phb : ℚ)
    (names ptimes hints : Nat → String) (durs : Nat → ℚ) (hcap : 1 ≤ cap) (k : Nat) :
    (iterateAdd names ptimes hints durs (PMState.init cap td pt hb phb) k).playlistCapacity = cap ∧
    (iterateAdd names ptimes hints durs (PMState.init cap td pt hb phb) k).nextSequence = k ∧
    (iterateAdd names ptimes hints durs (PMState.init cap td pt hb phb) k).segments.map
        (fun e => e.sequence) = List.range' (k - cap) (min k cap) ∧
    (1 ≤ k → ∃ hd tl,
      (iterateAdd names ptimes hints durs (PMState.init cap td pt hb phb) k).segments = hd :: tl ∧
      (iterateAdd names ptimes hints durs (PMState.init cap td pt hb phb) k).baseSequence
        = hd.sequence) := by
  induction k with
  | zero => exact ⟨rfl, rfl, by simp [iterateAdd, PMState.init], by omega⟩
  | succ k ih =>
      obtain ⟨ih1, ih2, ih3, _⟩ := ih
      obtain ⟨s1, s2, s3, s4⟩ := addSegment_window_step
        (iterateAdd names ptimes hints durs (PMState.init cap td pt hb phb) k)
        k cap (names k) (durs k) (ptimes k) (hints k) hcap ih1 ih2 ih3
      exact ⟨s1, s2, s3, fun _ => s4⟩

/-- Claim C4: `K ≥ 1` `add_segment` calls on a freshly constructed manager
with capacity ≥ 1 leave a window of exactly `min K capacity` segments whose
sequence numbers are `K - capacity, …, K - 1` in order (i.e. starting at
`max 0 (K - capacity)`), and the base sequence number equals the sequence of
the oldest retained segment, which is `K - capacity`. -/
theorem C4_window_after_K_adds (cap K : Nat) (td pt hb phb : ℚ)
    (names ptimes hints : Nat → String) (durs : Nat → ℚ)
    (hcap : 1 ≤ cap) (hK : 1 ≤ K) :
    (iterateAdd names ptimes hints durs (PMState.init cap td pt hb phb) K).segments.length
      = min K cap ∧
    (iterateAdd names ptimes hints durs (PMState.init cap td pt hb phb) K).segments.map
      (fun e => e.sequence) = List.range' (K - cap) (min K cap) ∧
    (∃ hd tl,
      (iterateAdd names ptimes hints durs (PMState.init cap td pt hb phb) K).segments
        = hd :: tl ∧
      (iterateAdd names ptimes hints durs (PMState.init cap td pt hb phb) K).baseSequence
        = hd.sequence ∧
      hd.sequence = K - cap) := by
  obtain ⟨_, _, h3, h4⟩ := iterateAdd_invariant cap td pt hb phb names ptimes hints durs hcap K
  obtain ⟨hd, tl, hcons, hbase⟩ := h4 hK
  refine ⟨?_, h3, hd, tl, hcons, hbase, ?_⟩
  · have hl := congrArg List.length h3
    simpa using hl
  · have hmin : min K cap = (min K cap - 1) + 1 := by omega
    rw [hcons, hmin, List.range'_succ] at h3
    simp only [List.map_cons, List.cons.injEq] at h3
    exact h3.1

/-- Claim C4 (witness): capacity 3, four adds — the window holds sequences
1, 2, 3 and the base sequence is 1. -/
theorem C4_window_after_K_adds_witness :
    (iterateAdd (fun n => toString n) (fun _ => "t") (fun _ => "h") (fun _ => 1)
        (PMState.init 3 1 1 1 1) 4).segments.length = min 4 3 ∧
    (iterateAdd (fun n => toString n) (fun _ => "t") (fun _ => "h") (fun _ => 1)
        (PMState.init 3 1 1 1 1) 4).segments.map (fun e => e.sequence)
      = List.range' (4 - 3) (min 4 3) ∧
    (∃ hd tl,
      (iterateAdd (fun n => toString n) (fun _ => "t") (fun _ => "h") (fun _ => 1)
          (PMState.init 3 1 1 1 1) 4).segments = hd :: tl ∧
      (iterateAdd (fun n => toString n) (fun _ => "t") (fun _ => "h") (fun _ => 1)
          (PMState.init 3 1 1 1 1) 4).baseSequence = hd.sequence ∧
      hd.sequence = 4 - 3) :=
  C4_window_after_K_adds 3 4 1 1 1 1 (fun n => toString n) (fun _ => "t") (fun _ => "h")
    (fun _ => 1) (by decide) (by decide)

/-- Claim C8 (counterexample): an observation whose playlist window is empty
while the media sequence has advanced (counter 9 + 0 = 9 past the high-water
mark 5) creates no timestamp record at all — the source returns on
`if not segments` before recording — where the claim demands four records. -/
theorem C8_cex_empty_window_observation :
    (5 : Nat) < 9 + ([] : List Unit).length ∧
    recordNewSegments ⟨5, []⟩ ⟨9, []⟩ 777 = ⟨5, []⟩ :=
  ⟨by decide, rfl⟩

/-- Dict assignment with a key absent from the map appends the new pair. -/
theorem dictSet_fresh (m : List (String × Nat)) (k : String) (v : Nat)
    (h : ∀ p ∈ m, p.1 ≠ k) : dictSet m k v = m ++ [(k, v)] := by
  have hany : m.any (fun p => p.1 == k) = false := by
    rw [List.any_eq_false]
    intro p hp
    simp only [beq_iff_eq]
    exact h p hp
  rw [dictSet, if_neg (by simp [hany])]

/-- The fold inside `minKey` keeps an accumulator that no later key
undercuts. -/
theorem minKey_foldl_const (rest : List (String × Nat)) : ∀ acc : String,
    (∀ q ∈ rest, ¬(q.1 < acc)) →
    rest.foldl (fun acc p =>
      match acc with
      | none => some p.1
      | some s => if p.1 < s then some p.1 else some s) (some acc) = some acc := by
  induction rest with
  | nil =>
      intro acc _
      rfl
  | cons q rest ih =>
      intro acc h
      simp only [List.foldl_cons]
      rw [if_neg (h q (List.mem_cons_self q rest))]
      exact ih acc (fun r hr => h r (List.mem_cons_of_mem q hr))

/-- `sorted(keys)[0]` of a map whose head key is below every other key is
that head key. -/
theorem minKey_cons (p : String × Nat) (rest : List (String × Nat))
    (h : ∀ q ∈ rest, p.1 < q.1) : minKey (p :: rest) = some p.1 := by
  rw [minKey]
  simp only [List.foldl_cons]
  exact minKey_foldl_const rest p.1 (fun q hq => lt_asymm (h q hq))

/-- Deleting the head key of such a map removes exactly the head entry. -/
theorem delKey_cons (p : String × Nat) (rest : List (String × Nat))
    (h : ∀ q ∈ rest, p.1 < q.1) : delKey (p :: rest) p.1 = rest := by
  rw [delKey, List.filter_cons, if_neg (by simp)]
  rw [List.filter_eq_self]
  intro q hq
  simp only [Bool.not_eq_true', beq_eq_false_iff_ne, ne_eq]
  exact (h q hq).ne'

/-- Folding the per-segment record step over fresh, strictly ascending keys
behaves as a bounded sliding window: each index appends one record carrying
the shared timestamp, and once the dict exceeds 120 entries each insertion
evicts the smallest (oldest) key, so the result is the suffix of
old-then-new past the overflow. -/
theorem recordFold_sliding (now : Nat) :
    ∀ (L : List Nat) (m : List (String × Nat)),
      List.Pairwise (fun a b => a.1 < b.1) (m ++ L.map (fun i => (segmentName i, now))) →
      m.length ≤ 120 →
      L.foldl (recordStep now) m
        = (m ++ L.map (fun i => (segmentName i, now))).drop (m.length + L.length - 120) := by
  intro L
  induction L with
  | nil =>
      intro m _ hsize
      simp only [List.map_nil, List.append_nil, List.length_nil, Nat.add_zero, List.foldl_nil]
      rw [show m.length - 120 = 0 from by omega, List.drop_zero]
  | cons i L ih =>
      intro m hsorted hsize
      simp only [List.map_cons] at hsorted ⊢
      have hcross : ∀ p ∈ m, p.1 < segmentName i := by
        rw [List.pairwise_append] at hsorted
        intro p hp
        exact hsorted.2.2 p hp (segmentName i, now) (List.mem_cons_self _ _)
      have hfresh : ∀ p ∈ m, p.1 ≠ segmentName i := fun p hp => (hcross p hp).ne
      simp only [List.foldl_cons, List.length_cons]
      by_cases hfull : m.length < 120
      · have hstep : recordStep now m i = m ++ [(segmentName i, now)] := by
          rw [recordStep, dictSet_fresh m _ now hfresh]
          rw [if_neg (by
            simp only [List.length_append, List.length_cons, List.length_nil, gt_iff_lt,
              not_lt]
            omega)]
        rw [hstep]
        have hsorted2 : List.Pairwise (fun (a b : String × Nat) => a.1 < b.1)
            ((m ++ [(segmentName i, now)]) ++ L.map (fun i => (segmentName i, now))) := by
          rw [List.append_assoc, List.singleton_append]
          exact hsorted
        rw [ih (m ++ [(segmentName i, now)]) hsorted2
          (by simp only [List.length_append, List.length_cons, List.length_nil]; omega)]
        rw [List.append_assoc, List.singleton_append]
        congr 1
        simp only [List.length_append, List.length_cons, List.length_nil]
        omega
      · have h120 : m.length = 120 := by omega
        obtain ⟨p, mt, rfl⟩ : ∃ p mt, m = p :: mt := by
          cases m with
          | nil => simp at h120
          | cons p mt => exact ⟨p, mt, rfl⟩
        have hmt : mt.length = 119 := by
          simp only [List.length_cons] at h120
          omega
        have hmin : ∀ q ∈ mt ++ [(segmentName i, now)], p.1 < q.1 := by
          intro q hq
          rcases List.mem_append.mp hq with hq | hq
          · rw [List.pairwise_append, List.pairwise_cons] at hsorted
            exact hsorted.1.1 q hq
          · have hqe : q = (segmentName i, now) := by simpa using hq
            rw [hqe]
            exact hcross p (List.mem_cons_self p mt)
        have hstep : recordStep now (p :: mt) i = mt ++ [(segmentName i, now)] := by
          rw [recordStep, dictSet_fresh (p :: mt) _ now hfresh, List.cons_append]
          rw [if_pos (by
            simp only [List.length_cons, List.length_append, List.length_nil, gt_iff_lt]
            omega)]
          rw [minKey_cons p (mt ++ [(segmentName i, now)]) hmin]
          simp only [Option.getD_some]
          exact delKey_cons p (mt ++ [(segmentName i, now)]) hmin
        rw [hstep]
        have hsorted2 : List.Pairwise (fun (a b : String × Nat) => a.1 < b.1)
            ((mt ++ [(segmentName i, now)]) ++ L.map (fun i => (segmentName i, now))) := by
          rw [List.append_assoc, List.singleton_append]
          rw [List.cons_append] at hsorted
          exact (List.pairwise_cons.mp hsorted).2
        rw [ih (mt ++ [(segmentName i, now)]) hsorted2
          (by simp only [List.length_append, List.length_cons, List.length_nil]; omega)]
        rw [List.append_assoc, List.singleton_append]
        rw [show (mt ++ [(segmentName i, now)]).length + L.length - 120 = L.length from by
          simp only [List.length_append, List.length_cons, List.length_nil]
          omega]
        rw [List.cons_append]
        rw [show (p :: mt).length + (L.length + 1) - 120 = L.length + 1 from by
          simp only [List.length_cons]
          omega]
        rw [List.drop_succ_cons]

/-- Claim C8 (amended): whenever the Timestamp Correlator observes a
nonempty playlist window whose absolute segment counter (media sequence
plus window length) has advanced from high-water mark H to H' > H, exactly
H' - H new timestamp records are created — one per segment index H+1
through H', appended in that order, all carrying the same wall-clock value
taken at the observation instant — while the rolling 120-entry bound evicts
the oldest keys, so the final map is exactly the old-then-new sequence with
the overflow dropped from the front; in particular whenever at most 120
segments closed since the last check (always the case in normal operation)
every newly implied segment's record is present in the final map.  No
record is created when the counter has not advanced.  The ascending-key and
at-most-120-entries hypotheses hold in every reachable correlator state,
including the steady state where the map is pinned at 120 entries. -/
theorem C8_records_new_segments (st : TSCState) (obs : M3U8Obs) (now : Nat)
    (hne : obs.segments ≠ [])
    (hadv : st.currentSegmentIndex < obs.sequence + obs.segments.length)
    (hsorted : List.Pairwise (fun a b => a.1 < b.1)
      (st.timestamps ++ (List.range' (st.currentSegmentIndex + 1)
        (obs.sequence + obs.segments.length - st.currentSegmentIndex)).map
        (fun i => (segmentName i, now))))
    (hsize : st.timestamps.length ≤ 120) :
    (recordNewSegments st obs now).currentSegmentIndex
        = obs.sequence + obs.segments.length ∧
    (recordNewSegments st obs now).timestamps
        = (st.timestamps ++ (List.range' (st.currentSegmentIndex + 1)
            (obs.sequence + obs.segments.length - st.currentSegmentIndex)).map
            (fun i => (segmentName i, now))).drop
          (st.timestamps.length
            + (obs.sequence + obs.segments.length - st.currentSegmentIndex) - 120) ∧
    (obs.sequence + obs.segments.length - st.currentSegmentIndex ≤ 120 →
      ∀ i, st.currentSegmentIndex < i → i ≤ obs.sequence + obs.segments.length →
        (segmentName i, now) ∈ (recordNewSegments st obs now).timestamps) ∧
    (∀ (st2 : TSCState) (obs2 : M3U8Obs) (now2 : Nat),
      obs2.sequence + obs2.segments.length ≤ st2.currentSegmentIndex →
      recordNewSegments st2 obs2 now2 = st2) := by
  have hmain : recordNewSegments st obs now
      = { currentSegmentIndex := obs.sequence + obs.segments.length
          timestamps := (st.timestamps ++ (List.range' (st.currentSegmentIndex + 1)
              (obs.sequence + obs.segments.length - st.currentSegmentIndex)).map
              (fun i => (segmentName i, now))).drop
            (st.timestamps.length
              + (obs.sequence + obs.segments.length - st.currentSegmentIndex) - 120) } := by
    rw [recordNewSegments]
    rw [if_neg (by simp [hne])]
    simp only []
    rw [if_neg (by omega)]
    rw [recordFold_sliding now _ _ hsorted hsize]
    simp only [List.length_range']
  refine ⟨by rw [hmain], by rw [hmain], ?_, ?_⟩
  · intro hn i hlo hhi
    rw [hmain]
    simp only []
    rw [List.drop_append_eq_append_drop]
    rw [show st.timestamps.length
        + (obs.sequence + obs.segments.length - st.currentSegmentIndex) - 120
        - st.timestamps.length = 0 from by omega]
    rw [List.drop_zero]
    apply List.mem_append_right
    apply List.mem_map.mpr
    exact ⟨i, List.mem_range'_1.mpr (by omega), rfl⟩
  · intro st2 obs2 now2 hle
    rw [recordNewSegments]
    split
    · rfl
    · simp only []
      rw [if_pos hle]

/-- Claim C8 (witness): counter jump from 5 to 8 (media sequence 6, window
of two segments) creates exactly the three records for segments 6, 7, 8,
all stamped 777, after the existing records for 4 and 5; nothing overflows
the 120-entry bound so all three are present in the final map. -/
theorem C8_records_new_segments_witness :
    (recordNewSegments ⟨5, [(segmentName 4, 100), (segmentName 5, 101)]⟩ ⟨6, [(), ()]⟩
        777).currentSegmentIndex = 6 + ([(), ()] : List Unit).length ∧
    (recordNewSegments ⟨5, [(segmentName 4, 100), (segmentName 5, 101)]⟩ ⟨6, [(), ()]⟩
        777).timestamps
      = ([(segmentName 4, 100), (segmentName 5, 101)]
          ++ (List.range' (5 + 1) (6 + ([(), ()] : List Unit).length - 5)).map
              (fun i => (segmentName i, 777))).drop
          ([(segmentName 4, 100), (segmentName 5, 101)].length
            + (6 + ([(), ()] : List Unit).length - 5) - 120) ∧
    (6 + ([(), ()] : List Unit).length - 5 ≤ 120 →
      ∀ i, 5 < i → i ≤ 6 + ([(), ()] : List Unit).length →
        (segmentName i, 777) ∈ (recordNewSegments ⟨5, [(segmentName 4, 100),
          (segmentName 5, 101)]⟩ ⟨6, [(), ()]⟩ 777).timestamps) ∧
    (∀ (st2 : TSCState) (obs2 : M3U8Obs) (now2 : Nat),
      obs2.sequence + obs2.segments.length ≤ st2.currentSegmentIndex →
      recordNewSegments st2 obs2 now2 = st2) := by
  refine C8_records_new_segments ⟨5, [(segmentName 4, 100), (segmentName 5, 101)]⟩
    ⟨6, [(), ()]⟩ 777 (by decide) (by decide) ?_ (by decide)
  simp only [String.lt_iff_toList_lt]
  decide

/-- Claim C3 (witness for the amended theorem): on a capacity-3 manager
whose init segment has been written, `add_segment` persists and calls
`notify_all`. -/
theorem C3_add_segment_broadcasts_witness :
    (addSegment { PMState.init 3 1 1 1 1 with initWritten := true } "s" 1 "t" "h").2.persisted
      = true ∧
    (addSegment { PMState.init 3 1 1 1 1 with initWritten := true } "s" 1 "t" "h").2.notifiedAll
      = true ∧
    ∃ s, (addSegment { PMState.init 3 1 1 1 1 with initWritten := true }
      "s" 1 "t" "h").1.playlistBytes = some s ∧ s ≠ "" :=
  C3_add_segment_broadcasts { PMState.init 3 1 1 1 1 with initWritten := true }
    "s" 1 "t" "h" (by rfl) (by decide)

end VideoLatency
